import Mathlib

/-!
Shallow embedding of the teris-io/longpoll core (Go) in Lean 4.

The embedding covers:
  - the Timeout watcher (timeout.go: NewTimeout, Ping, Drop, IsAlive, handle);
  - the subscription Channel (channel.go: NewChannel, Publish, Get,
    onDataWaiting, onNewDataLocking, onLongpollTimeoutLocking, Drop, Topics,
    QueueSize, IsGetWaiting, IsAlive);
  - the LongPoll broker (longpoll.go: New, Subscribe, Publish, Channel,
    Channels, Ids, Get, IsAlive, Drop, drop, Shutdown, Topics).

Modelling conventions:
  - Published data values are opaque to the code; they are modelled as Nat.
  - Go durations are nanosecond integers; they are modelled as Int.
  - Buffered one-slot Go channels are modelled by their observable content:
    the report channel of a Timeout by a counter of values ever sent on it,
    the one-slot ping channel of a getnotifier by a Bool (a value is queued).
  - Function values stored in fields (the onTimeout callback of a Timeout,
    the onClose callback of a Channel) are modelled by the CbTag marker type
    recording which function of the source was stored; the source only ever
    stores Channel.Drop into a Timeout and LongPoll.drop into a Channel.
  - Each mutex-guarded region of the source is one atomic function on the
    state; goroutine interleavings are sequences of such atomic steps.
  - The external identifier producer (shortid.Generate) is out of scope of
    the spec; its result is passed in as an argument and assumed to succeed.
-/

/-- Opaque published data values (Go interface values, uninterpreted). -/
abbrev Val := Nat

/-- Marker for the function values the source stores in callback fields. -/
inductive CbTag where
  /-- the Channel.Drop bound method of the channel under construction -/
  | chanDrop
  /-- the private LongPoll.drop bound method of the broker -/
  | lpDrop
deriving DecidableEq

/-- Go: getnotifier struct of channel.go. The field ping models the content
of the one-slot buffered ping chan: true when a signal is queued on it. -/
structure Getnotifier where
  pinged : Bool
  ping : Bool
deriving DecidableEq

/-- Go: Timeout struct of timeout.go. The field report counts the values
ever sent on the one-slot buffered report chan; fired counts invocations
of the onTimeout callback. -/
structure Timeout where
  lastping : Int
  alive : Bool
  report : Nat
  onTimeout : Option CbTag
  fired : Nat
deriving DecidableEq

/-- Go: NewTimeout of timeout.go. Fails on a non-positive timeout, otherwise
starts alive with lastping set to the current time (tor.Ping() at creation)
and no report or callback activity yet. -/
def NewTimeout (timeout : Int) (onTimeout : Option CbTag) (now : Int) : Except String Timeout :=
  if timeout ≤ 0 then .error "positive timeout value expected"
  else .ok { lastping := now, alive := true, report := 0, onTimeout := onTimeout, fired := 0 }

/-- Go: (tor) Ping of timeout.go: update lastping to now if alive. -/
def Timeout.Ping (tor : Timeout) (now : Int) : Timeout :=
  if tor.alive then { tor with lastping := now } else tor

/-- Go: (tor) Drop of timeout.go: store no into the alive flag. -/
def Timeout.Drop (tor : Timeout) : Timeout :=
  { tor with alive := false }

/-- Go: (tor) IsAlive of timeout.go. -/
def Timeout.IsAlive (tor : Timeout) : Bool := tor.alive

/-- Go: the exit of the (tor) handle loop of timeout.go. The loop runs while
elapsed < timeout and alive; at exit, if still alive it stores no into alive
and invokes the onTimeout callback when set (natural expiry), and in every
case it sends one value on the report chan. -/
def Timeout.handleExit (tor : Timeout) : Timeout :=
  if tor.alive then
    { tor with
      alive := false,
      fired := tor.fired + (if tor.onTimeout.isSome then 1 else 0),
      report := tor.report + 1 }
  else
    { tor with report := tor.report + 1 }

/-- An atomic event in the lifetime of a Timeout: an external Drop call, an
external Ping call, or the exit of the supervisory handle goroutine. -/
inductive ToStep where
  | drop
  | ping (now : Int)
  | handleExit
deriving DecidableEq

/-- Apply one lifetime event to a Timeout state. -/
def toStepApply (s : ToStep) (tor : Timeout) : Timeout :=
  match s with
  | .drop => tor.Drop
  | .ping now => tor.Ping now
  | .handleExit => tor.handleExit

/-- Run a sequence of lifetime events on a Timeout state. -/
def toRun (steps : List ToStep) (tor : Timeout) : Timeout :=
  steps.foldl (fun t s => toStepApply s t) tor

/-- Lifetime events other than handleExit leave the report counter alone. -/
theorem toRun_report (steps : List ToStep) (tor : Timeout)
    (h : ToStep.handleExit ∉ steps) : (toRun steps tor).report = tor.report := by
  induction steps generalizing tor with
  | nil => rfl
  | cons s rest ih =>
    have hs : s ≠ ToStep.handleExit := fun he => h (he ▸ List.mem_cons_self s rest)
    have hrest : ToStep.handleExit ∉ rest := fun hm => h (List.mem_cons_of_mem s hm)
    cases s with
    | drop => simpa [toRun, toStepApply, Timeout.Drop] using ih _ hrest
    | ping now =>
      simp only [toRun, List.foldl_cons, toStepApply, Timeout.Ping]
      split <;> exact ih _ hrest
    | handleExit => exact absurd rfl hs

/-- Lifetime events other than handleExit leave the fired counter alone. -/
theorem toRun_fired (steps : List ToStep) (tor : Timeout)
    (h : ToStep.handleExit ∉ steps) : (toRun steps tor).fired = tor.fired := by
  induction steps generalizing tor with
  | nil => rfl
  | cons s rest ih =>
    have hs : s ≠ ToStep.handleExit := fun he => h (he ▸ List.mem_cons_self s rest)
    have hrest : ToStep.handleExit ∉ rest := fun hm => h (List.mem_cons_of_mem s hm)
    cases s with
    | drop => simpa [toRun, toStepApply, Timeout.Drop] using ih _ hrest
    | ping now =>
      simp only [toRun, List.foldl_cons, toStepApply, Timeout.Ping]
      split <;> exact ih _ hrest
    | handleExit => exact absurd rfl hs

/-- Lifetime events other than handleExit leave the callback field alone. -/
theorem toRun_onTimeout (steps : List ToStep) (tor : Timeout)
    (h : ToStep.handleExit ∉ steps) : (toRun steps tor).onTimeout = tor.onTimeout := by
  induction steps generalizing tor with
  | nil => rfl
  | cons s rest ih =>
    have hs : s ≠ ToStep.handleExit := fun he => h (he ▸ List.mem_cons_self s rest)
    have hrest : ToStep.handleExit ∉ rest := fun hm => h (List.mem_cons_of_mem s hm)
    cases s with
    | drop => simpa [toRun, toStepApply, Timeout.Drop] using ih _ hrest
    | ping now =>
      simp only [toRun, List.foldl_cons, toStepApply, Timeout.Ping]
      split <;> exact ih _ hrest
    | handleExit => exact absurd rfl hs

/-- Nothing in a Drop-or-Ping sequence revives a dead watcher. -/
theorem toRun_alive_false (steps : List ToStep) (tor : Timeout)
    (h : ToStep.handleExit ∉ steps) (ha : tor.alive = false) :
    (toRun steps tor).alive = false := by
  induction steps generalizing tor with
  | nil => exact ha
  | cons s rest ih =>
    have hs : s ≠ ToStep.handleExit := fun he => h (he ▸ List.mem_cons_self s rest)
    have hrest : ToStep.handleExit ∉ rest := fun hm => h (List.mem_cons_of_mem s hm)
    cases s with
    | drop => exact ih _ hrest (by simp [toStepApply, Timeout.Drop])
    | ping now => exact ih _ hrest (by simp [toStepApply, Timeout.Ping, ha])
    | handleExit => exact absurd rfl hs

/-- Without a handleExit event, the watcher stays alive exactly when no Drop
occurred: Ping preserves the flag and Drop clears it. -/
theorem toRun_alive (steps : List ToStep) (tor : Timeout)
    (h : ToStep.handleExit ∉ steps) (ha : tor.alive = true) :
    (toRun steps tor).alive = true ↔ ToStep.drop ∉ steps := by
  induction steps generalizing tor with
  | nil => simp [toRun, ha]
  | cons s rest ih =>
    have hs : s ≠ ToStep.handleExit := fun he => h (he ▸ List.mem_cons_self s rest)
    have hrest : ToStep.handleExit ∉ rest := fun hm => h (List.mem_cons_of_mem s hm)
    cases s with
    | drop =>
      have hdead : (toRun (ToStep.drop :: rest) tor).alive = false := by
        have : (tor.Drop).alive = false := by simp [Timeout.Drop]
        exact toRun_alive_false rest tor.Drop hrest this
      constructor
      · intro hfinal
        rw [hdead] at hfinal
        cases hfinal
      · intro hnd
        exact absurd (List.mem_cons_self ToStep.drop rest) hnd
    | ping now =>
      have step : toRun (ToStep.ping now :: rest) tor = toRun rest (tor.Ping now) := rfl
      have hping : (tor.Ping now).alive = true := by simp [Timeout.Ping, ha]
      rw [step, ih _ hrest hping]
      constructor
      · intro hnd hm
        rcases List.mem_cons.mp hm with h1 | h2
        · cases h1
        · exact hnd h2
      · intro hnd hm
        exact hnd (List.mem_cons_of_mem _ hm)
    | handleExit => exact absurd rfl hs

/-- C8: for every timeout watcher, over a whole lifetime (any sequence of
Ping and Drop events, one exit of the handle goroutine, then any further
Ping and Drop events) the report signal is emitted exactly once, and the
onTimeout callback fires exactly once when it is set and no Drop preceded
the exit (natural expiry), and never otherwise. -/
theorem c8_timeout_report_once (timeout now : Int) (cb : Option CbTag) (tor0 : Timeout)
    (h0 : NewTimeout timeout cb now = .ok tor0)
    (pre post : List ToStep)
    (hpre : ToStep.handleExit ∉ pre) (hpost : ToStep.handleExit ∉ post) :
    (toRun post (Timeout.handleExit (toRun pre tor0))).report = 1 ∧
    (toRun post (Timeout.handleExit (toRun pre tor0))).fired =
      (if cb.isSome ∧ ToStep.drop ∉ pre then 1 else 0) := by
  have htor : tor0 = { lastping := now, alive := true, report := 0, onTimeout := cb, fired := 0 } := by
    unfold NewTimeout at h0
    by_cases hc : timeout ≤ 0
    · simp [hc] at h0
    · simp [hc] at h0
      exact h0.symm
  subst htor
  set t0 : Timeout :=
    { lastping := now, alive := true, report := 0, onTimeout := cb, fired := 0 } with ht0
  have hrep : (toRun pre t0).report = 0 := (toRun_report pre t0 hpre).trans rfl
  have hfir : (toRun pre t0).fired = 0 := (toRun_fired pre t0 hpre).trans rfl
  have hcb : (toRun pre t0).onTimeout = cb := (toRun_onTimeout pre t0 hpre).trans rfl
  have haliveIff := toRun_alive pre t0 hpre (by rfl)
  constructor
  · rw [toRun_report post _ hpost]
    unfold Timeout.handleExit
    split <;> simp [hrep]
  · rw [toRun_fired post _ hpost]
    unfold Timeout.handleExit
    by_cases hd : ToStep.drop ∉ pre
    · have halive : (toRun pre t0).alive = true := haliveIff.mpr hd
      rw [if_pos halive]
      simp only [hfir, hcb, Nat.zero_add]
      by_cases hsome : cb.isSome
      · rw [if_pos hsome, if_pos ⟨hsome, hd⟩]
      · rw [if_neg hsome, if_neg (fun hand => hsome hand.1)]
    · have halive : (toRun pre t0).alive = false := by
        rcases Bool.eq_false_or_eq_true (toRun pre t0).alive with ht | hf
        · exact absurd (haliveIff.mp ht) hd
        · exact hf
      rw [if_neg (by simp [halive]), hfir, if_neg (fun hand => hd hand.2)]

/-- Witness for c8_timeout_report_once: watcher with the channel-drop
callback, one ping before natural expiry, one drop after it. -/
theorem c8_timeout_report_once_witness :
    (toRun [ToStep.drop] (Timeout.handleExit (toRun [ToStep.ping 3]
      { lastping := 0, alive := true, report := 0,
        onTimeout := some CbTag.chanDrop, fired := 0 }))).report = 1 ∧
    (toRun [ToStep.drop] (Timeout.handleExit (toRun [ToStep.ping 3]
      { lastping := 0, alive := true, report := 0,
        onTimeout := some CbTag.chanDrop, fired := 0 }))).fired = 1 := by
  have h := c8_timeout_report_once 10 0 (some CbTag.chanDrop) _ rfl
    [ToStep.ping 3] [ToStep.drop] (by decide) (by decide)
  refine ⟨h.1, ?_⟩
  rw [h.2, if_pos (by decide)]

/-- Go: Channel struct of channel.go. The topics field models the key set of
the Go map as a duplicate-free list; data is the waiting queue; notif the
single parked-getter slot; tor the idle-timeout watcher. -/
structure Channel where
  id : String
  onClose : Option CbTag
  topics : List String
  data : List Val
  alive : Bool
  notif : Option Getnotifier
  tor : Timeout
deriving DecidableEq

/-- Insertion of one key into the key set of a Go map modelled as a list. -/
def insertTopic (ts : List String) (t : String) : List String :=
  if t ∈ ts then ts else ts ++ [t]

/-- Go: the topic-set construction loop of NewChannel, inserting each given
topic into an initially empty map. -/
def mkTopics (topics : List String) : List String :=
  topics.foldl insertTopic []

/-- Go: NewChannel of channel.go. Rejects an empty topic list, builds the
deduplicated topic set, creates the timeout watcher with the channel's own
Drop as callback (propagating its error), and starts alive with an empty
queue and no parked getter. The id stands for the external shortid result. -/
def NewChannel (timeout : Int) (onClose : Option CbTag) (topics : List String)
    (id : String) (now : Int) : Except String Channel :=
  if topics.isEmpty then .error "at least one topic expected"
  else
    match NewTimeout timeout (some CbTag.chanDrop) now with
    | .error e => .error e
    | .ok tor =>
      .ok { id := id, onClose := onClose, topics := mkTopics topics,
            data := [], alive := true, notif := none, tor := tor }

/-- Go: (ch) IsAlive of channel.go. -/
def Channel.IsAlive (ch : Channel) : Bool := ch.alive

/-- Go: the mutex-guarded body of the goroutine spawned by (ch) Publish:
re-check alive, append the datum to the queue, and if a not-yet-pinged
getter is parked, set its pinged flag and send on its ping chan. -/
def Channel.publishLocked (ch : Channel) (v : Val) : Channel :=
  if ch.alive then
    { ch with
      data := ch.data ++ [v],
      notif := match ch.notif with
        | some n => if !n.pinged then some { pinged := true, ping := true } else some n
        | none => none }
  else ch

/-- Go: (ch) Publish of channel.go. Fails when not alive; silently succeeds
without touching the state when the topic is not subscribed; otherwise
succeeds and the spawned goroutine applies publishLocked under the mutex. -/
def Channel.Publish (ch : Channel) (v : Val) (topic : String) : Except String Unit × Channel :=
  if !ch.alive then (.error "subscription channel is down", ch)
  else if topic ∈ ch.topics then (.ok (), ch.publishLocked v)
  else (.ok (), ch)

/-- Go: the synchronous part of (ch) Get of channel.go: the fast-path error
checks performed before the response chan is created and returned. -/
def Channel.Get (ch : Channel) (polltime : Int) : Except String Unit :=
  if !ch.alive then .error "subscription channel is down"
  else if polltime ≤ 0 then .error "positive polltime value expected"
  else .ok ()

/-- Result of the first mutex-guarded region of the Get goroutine: either a
value was delivered on the response chan right away (some d, where d = []
models resp receiving nil), or a fresh getter was parked (none). -/
structure GetEnterRes where
  delivered : Option (List Val)
  ch : Channel

/-- Go: the first mutex-guarded region of the Get goroutine in channel.go:
re-check alive (deliver nil if dead); ping a parked not-yet-pinged getter;
then onDataWaiting (deliver and clear a non-empty queue, clearing the
getter slot) or park a fresh un-pinged getnotifier. -/
def Channel.getEnter (ch : Channel) : GetEnterRes :=
  if !ch.alive then { delivered := some [], ch := ch }
  else
    let ch1 : Channel :=
      { ch with
        notif := match ch.notif with
          | some n => if !n.pinged then some { pinged := true, ping := true } else some n
          | none => none }
    if ch1.data.length > 0 then
      { delivered := some ch1.data, ch := { ch1 with data := [], notif := none } }
    else
      { delivered := none,
        ch := { ch1 with notif := some { pinged := false, ping := false } } }

/-- Go: onNewDataLocking of channel.go: deliver the whole queue, clear it,
and clear the getter slot when the woken getter is still the current one
(the source compares getnotifier pointers; isCurrent is that outcome). -/
def Channel.onNewData (ch : Channel) (isCurrent : Bool) : List Val × Channel :=
  (ch.data, { ch with data := [], notif := if isCurrent then none else ch.notif })

/-- Go: onLongpollTimeoutLocking of channel.go: deliver nil (an empty
result, not an error) and clear the getter slot when the woken getter is
still the current one. -/
def Channel.onLongpollTimeout (ch : Channel) (isCurrent : Bool) : List Val × Channel :=
  ([], { ch with notif := if isCurrent then none else ch.notif })

/-- Go: the atomic store of no into the alive flag at the top of
(ch) Drop in channel.go. -/
def Channel.dropFlag (ch : Channel) : Channel :=
  { ch with alive := false }

/-- Go: the mutex-guarded body of the goroutine spawned by (ch) Drop:
drop the watcher, clear the queue, send on the ping chan of an un-pinged
parked getter, clear the getter slot, invoke onClose. The topics field is
not touched by this revision of the source. -/
def Channel.dropLocked (ch : Channel) : Channel :=
  { ch with tor := ch.tor.Drop, data := [], notif := none }

/-- Go: (ch) Drop of channel.go run to completion: no-op when already not
alive, otherwise the flag store followed by the locked cleanup body. -/
def Channel.Drop (ch : Channel) : Channel :=
  if !ch.alive then ch else ch.dropFlag.dropLocked

/-- Go: (ch) Topics of channel.go: the key list of the topics map. -/
def Channel.Topics (ch : Channel) : List String := ch.topics

/-- Go: (ch) QueueSize of channel.go. -/
def Channel.QueueSize (ch : Channel) : Nat := ch.data.length

/-- Go: (ch) IsGetWaiting of channel.go. -/
def Channel.IsGetWaiting (ch : Channel) : Bool := ch.notif.isSome

/-- Inserting a key into a duplicate-free key list keeps it duplicate-free. -/
theorem insertTopic_nodup (ts : List String) (t : String) (h : ts.Nodup) :
    (insertTopic ts t).Nodup := by
  unfold insertTopic
  split
  · exact h
  · next hnot =>
    refine List.Nodup.append h (List.nodup_singleton t) ?_
    intro x hx hxt
    rw [List.mem_singleton] at hxt
    exact hnot (hxt ▸ hx)

/-- Membership after inserting a key into a key list. -/
theorem insertTopic_mem (ts : List String) (t x : String) :
    x ∈ insertTopic ts t ↔ x ∈ ts ∨ x = t := by
  unfold insertTopic
  split
  · next hin =>
    constructor
    · exact Or.inl
    · rintro (h | rfl)
      · exact h
      · exact hin
  · simp [List.mem_append]

/-- The topic-set construction fold: duplicate-free result with membership
equal to that of the accumulator plus the inserted keys. -/
theorem mkTopics_aux (topics : List String) (acc : List String) (hacc : acc.Nodup) :
    (topics.foldl insertTopic acc).Nodup ∧
    (∀ x, x ∈ topics.foldl insertTopic acc ↔ x ∈ acc ∨ x ∈ topics) := by
  induction topics generalizing acc with
  | nil => simp [hacc]
  | cons t rest ih =>
    have h1 := ih (insertTopic acc t) (insertTopic_nodup acc t hacc)
    refine ⟨h1.1, ?_⟩
    intro x
    rw [List.foldl_cons, h1.2 x, insertTopic_mem, List.mem_cons]
    tauto

/-- The constructed topic set is duplicate-free. -/
theorem mkTopics_nodup (topics : List String) : (mkTopics topics).Nodup :=
  (mkTopics_aux topics [] List.nodup_nil).1

/-- The constructed topic set has the members of the input list. -/
theorem mkTopics_mem (topics : List String) (x : String) :
    x ∈ mkTopics topics ↔ x ∈ topics := by
  have h := (mkTopics_aux topics [] List.nodup_nil).2 x
  simpa [mkTopics] using h

/-- C9: channel construction fails with the empty-topics error exactly on a
zero-topic input; with at least one topic it propagates the watcher's
invalid-duration error exactly when the timeout is non-positive; otherwise
it succeeds with the deduplicated input topic set, an alive channel, and a
live watcher whose expiry callback is the channel's own Drop. -/
theorem c9_newChannel_spec (timeout now : Int) (onClose : Option CbTag)
    (ts : List String) (id : String) :
    (ts = [] → NewChannel timeout onClose ts id now = .error "at least one topic expected") ∧
    (ts ≠ [] → timeout ≤ 0 →
      NewChannel timeout onClose ts id now = .error "positive timeout value expected") ∧
    (ts ≠ [] → 0 < timeout →
      ∃ ch, NewChannel timeout onClose ts id now = .ok ch ∧
        ch.alive = true ∧ ch.Topics.Nodup ∧ (∀ t, t ∈ ch.Topics ↔ t ∈ ts) ∧
        ch.tor.onTimeout = some CbTag.chanDrop ∧ ch.tor.alive = true) := by
  refine ⟨?_, ?_, ?_⟩
  · intro h
    subst h
    rfl
  · intro hne hle
    unfold NewChannel
    rw [if_neg (by simp [hne])]
    unfold NewTimeout
    rw [if_pos hle]
  · intro hne hpos
    unfold NewChannel
    rw [if_neg (by simp [hne])]
    unfold NewTimeout
    rw [if_neg (by omega)]
    exact ⟨_, rfl, rfl, mkTopics_nodup ts, fun t => mkTopics_mem ts t, rfl, rfl⟩

/-- Witness for c9_newChannel_spec: a concrete construction with a
duplicate in the topic list and a positive timeout. -/
theorem c9_newChannel_spec_witness :
    ∃ ch, NewChannel 5 none ["a", "a", "b"] "id0" 0 = .ok ch ∧
      ch.alive = true ∧ ch.Topics.Nodup ∧
      (∀ t, t ∈ ch.Topics ↔ t ∈ (["a", "a", "b"] : List String)) ∧
      ch.tor.onTimeout = some CbTag.chanDrop ∧ ch.tor.alive = true :=
  (c9_newChannel_spec 5 0 none ["a", "a", "b"] "id0").2.2 (by decide) (by decide)

/-- C1: Publish fails with the channel-down error when the channel is not
alive; silently succeeds without changing the state when the topic is not
subscribed; otherwise succeeds and its locked body appends the datum to
the queue and, exactly when an un-pinged getter is parked, marks it pinged
and queues the signal on its ping chan; and the locked body re-checks the
alive flag, doing nothing on a channel that died before the lock. -/
theorem c1_publish_spec (ch : Channel) (v : Val) (t : String) :
    (ch.alive = false → ch.Publish v t = (.error "subscription channel is down", ch)) ∧
    (ch.alive = true → t ∉ ch.topics → ch.Publish v t = (.ok (), ch)) ∧
    (ch.alive = true → t ∈ ch.topics →
      (ch.Publish v t).1 = .ok () ∧
      (ch.Publish v t).2 = ch.publishLocked v ∧
      (ch.publishLocked v).data = ch.data ++ [v] ∧
      (∀ n, ch.notif = some n → n.pinged = false →
        (ch.publishLocked v).notif = some { pinged := true, ping := true }) ∧
      (∀ n, ch.notif = some n → n.pinged = true →
        (ch.publishLocked v).notif = some n) ∧
      (ch.notif = none → (ch.publishLocked v).notif = none)) ∧
    (∀ d : Channel, d.alive = false → d.publishLocked v = d) := by
  refine ⟨?_, ?_, ?_, ?_⟩
  · intro h
    simp [Channel.Publish, h]
  · intro ha ht
    simp [Channel.Publish, ha, ht]
  · intro ha ht
    refine ⟨by simp [Channel.Publish, ha, ht], by simp [Channel.Publish, ha, ht],
      by simp [Channel.publishLocked, ha], ?_, ?_, ?_⟩
    · intro n hn hp
      simp [Channel.publishLocked, ha, hn, hp]
    · intro n hn hp
      simp [Channel.publishLocked, ha, hn, hp]
    · intro hn
      simp [Channel.publishLocked, ha, hn]
  · intro d hd
    simp [Channel.publishLocked, hd]

/-- Concrete live watcher used by witness states. -/
def torEx : Timeout :=
  { lastping := 0, alive := true, report := 0, onTimeout := some CbTag.chanDrop, fired := 0 }

/-- Concrete channel with one queued datum and a parked un-pinged getter. -/
def chPubEx : Channel :=
  { id := "w1", onClose := none, topics := ["a"], data := [1], alive := true,
    notif := some { pinged := false, ping := false }, tor := torEx }

/-- Witness for c1_publish_spec: publishing on a subscribed topic of a live
channel with a parked un-pinged getter succeeds, appends, pings. -/
theorem c1_publish_spec_witness :
    (chPubEx.Publish 7 "a").1 = .ok () ∧
    (chPubEx.publishLocked 7).data = chPubEx.data ++ [7] ∧
    (chPubEx.publishLocked 7).notif = some { pinged := true, ping := true } := by
  have h := (c1_publish_spec chPubEx 7 "a").2.2.1 rfl (by decide)
  exact ⟨h.1, h.2.2.1, h.2.2.2.1 _ rfl rfl⟩

/-- C2: the synchronous part of Get errors exactly on a dead channel (with
the channel-down error) or a non-positive polltime (with the
invalid-polltime error), succeeding otherwise; and the poll-deadline path
onLongpollTimeoutLocking is not an error: it delivers an empty result on
the response chan. -/
theorem c2_get_spec (ch : Channel) (p : Int) :
    (ch.Get p = .error "subscription channel is down" ↔ ch.alive = false) ∧
    (ch.Get p = .error "positive polltime value expected" ↔ ch.alive = true ∧ p ≤ 0) ∧
    (ch.Get p = .ok () ↔ ch.alive = true ∧ 0 < p) ∧
    (∀ b, (ch.onLongpollTimeout b).1 = []) := by
  refine ⟨?_, ?_, ?_, fun b => rfl⟩ <;>
    rcases Bool.eq_false_or_eq_true ch.alive with ha | ha <;>
      by_cases hp : p ≤ 0 <;>
        (simp [Channel.Get, ha, hp]; try omega)

/-- Witness for c2_get_spec: a dead channel gives the channel-down error. -/
theorem c2_get_spec_witness :
    ({ chPubEx with alive := false } : Channel).Get 3 = .error "subscription channel is down" :=
  (c2_get_spec { chPubEx with alive := false } 3).1.mpr rfl

/-- The locked publish body does nothing on a channel that died before the
lock was acquired. -/
theorem publishLocked_dead (ch : Channel) (v : Val) (h : ch.alive = false) :
    ch.publishLocked v = ch := by
  simp [Channel.publishLocked, h]

/-- Concrete channel state as produced by NewChannel 100 none ["a"] "id1" 0. -/
def chEx : Channel :=
  { id := "id1", onClose := none, topics := ["a"], data := [], alive := true,
    notif := none, tor := torEx }

/-- C4 counterexample: dropping a live channel does not clear its topic
set; Topics still returns the construction set on the dead channel. -/
theorem c4_topics_cex :
    NewChannel 100 none ["a"] "id1" 0 = .ok chEx ∧
    chEx.Drop.alive = false ∧
    chEx.Drop.Topics = ["a"] :=
  ⟨rfl, rfl, rfl⟩

/-- C4 amended: Topics equals the deduplicated construction set while the
channel is alive and still equals it after Drop: no drop path clears the
topic set, and Drop always leaves the channel not alive. -/
theorem c4_topics_spec (timeout now : Int) (onClose : Option CbTag)
    (ts : List String) (id : String) (ch : Channel)
    (h : NewChannel timeout onClose ts id now = .ok ch) :
    ch.Topics.Nodup ∧ (∀ t, t ∈ ch.Topics ↔ t ∈ ts) ∧
    (∀ d : Channel, d.Drop.Topics = d.Topics ∧ d.Drop.alive = false) := by
  have hch : ch = { id := id, onClose := onClose, topics := mkTopics ts,
                    data := [], alive := true, notif := none,
                    tor := { lastping := now, alive := true, report := 0,
                             onTimeout := some CbTag.chanDrop, fired := 0 } } := by
    unfold NewChannel NewTimeout at h
    by_cases he : ts.isEmpty
    · simp [he] at h
    · by_cases hto : timeout ≤ 0 <;> simp [he, hto] at h
      exact h.symm
  subst hch
  refine ⟨mkTopics_nodup ts, fun t => mkTopics_mem ts t, ?_⟩
  intro d
  unfold Channel.Drop Channel.dropFlag Channel.dropLocked
  rcases Bool.eq_false_or_eq_true d.alive with hd | hd <;> simp [hd, Channel.Topics]

/-- Witness for c4_topics_spec at the concrete construction behind chEx. -/
theorem c4_topics_spec_witness :
    chEx.Topics.Nodup ∧ (∀ t, t ∈ chEx.Topics ↔ t ∈ (["a"] : List String)) ∧
    (∀ d : Channel, d.Drop.Topics = d.Topics ∧ d.Drop.alive = false) :=
  c4_topics_spec 100 0 none ["a"] "id1" chEx rfl

/-- One atomic mutex-guarded step on a channel state: the locked publish
body (for a subscribed topic, as checked lock-free before it), the locked
entry region of a Get goroutine, the wake-up of a signalled getter, the
wake-up of a getter whose poll deadline elapsed, the alive-flag store of
Drop, and the locked cleanup body of Drop. The isCurrent argument of the
wake-up steps is the outcome of the source's getnotifier pointer
comparison, which the state does not track and is left nondeterministic. -/
inductive ChStep : Channel → Channel → Prop where
  | pub (ch : Channel) (v : Val) (t : String) (ht : t ∈ ch.topics) :
      ChStep ch (ch.publishLocked v)
  | getEnter (ch : Channel) :
      ChStep ch ch.getEnter.ch
  | newData (ch : Channel) (isCurrent : Bool) :
      ChStep ch (ch.onNewData isCurrent).2
  | pollTimeout (ch : Channel) (isCurrent : Bool) :
      ChStep ch (ch.onLongpollTimeout isCurrent).2
  | dropFlag (ch : Channel) (ha : ch.alive = true) :
      ChStep ch ch.dropFlag
  | dropLocked (ch : Channel) (ha : ch.alive = false) :
      ChStep ch ch.dropLocked

/-- State after parking a getter on chEx (Get entered, empty queue). -/
def chParked : Channel := chEx.getEnter.ch

/-- State after the locked publish body runs on chParked. -/
def chLoaded : Channel := chParked.publishLocked 7

/-- C3 counterexample: after construct, a get step that parks a waiter and
one publish on a subscribed topic, the state has a non-empty queue while a
waiter descriptor is still parked in the waiter slot. -/
theorem c3_queue_waiter_cex :
    Relation.ReflTransGen ChStep chEx chLoaded ∧
    chLoaded.data ≠ [] ∧ chLoaded.notif ≠ none ∧ chLoaded.IsGetWaiting = true := by
  refine ⟨?_, by decide, by decide, by decide⟩
  exact Relation.ReflTransGen.head (ChStep.getEnter chEx)
    (Relation.ReflTransGen.single (ChStep.pub chParked 7 "a" (by decide)))

/-- Invariant: whenever an un-pinged getter is parked, the queue is empty. -/
def chInv (ch : Channel) : Prop :=
  ∀ n, ch.notif = some n → n.pinged = false → ch.data = []

/-- The Get entry region on a channel that died before the lock delivers
nil and leaves the state alone. -/
theorem getEnter_dead (ch : Channel) (h : ch.alive = false) :
    ch.getEnter = { delivered := some [], ch := ch } := by
  simp [Channel.getEnter, h]

/-- The Get entry region on a live channel with an empty queue parks a
fresh un-pinged getter. -/
theorem getEnter_alive_empty (ch : Channel) (h : ch.alive = true) (hd : ch.data = []) :
    ch.getEnter =
      { delivered := none,
        ch := { ch with notif := some { pinged := false, ping := false } } } := by
  simp [Channel.getEnter, h, hd]

/-- The Get entry region on a live channel with waiting data delivers the
whole queue, clears it and clears the getter slot. -/
theorem getEnter_alive_data (ch : Channel) (h : ch.alive = true) (hd : ch.data ≠ []) :
    ch.getEnter =
      { delivered := some ch.data, ch := { ch with data := [], notif := none } } := by
  have hl : ch.data.length > 0 := List.length_pos.mpr hd
  simp [Channel.getEnter, h, hl]

/-- Every atomic channel step preserves chInv. -/
theorem chInv_step {a b : Channel} (hs : ChStep a b) (ha : chInv a) : chInv b := by
  cases hs with
  | pub v t ht =>
    intro n hn hp
    rcases Bool.eq_false_or_eq_true a.alive with hal | hal
    · rcases hm : a.notif with _ | m
      · simp [Channel.publishLocked, hal, hm] at hn
      · rcases Bool.eq_false_or_eq_true m.pinged with hmp | hmp
        · simp [Channel.publishLocked, hal, hm, hmp] at hn
          rw [← hn] at hp
          rw [hp] at hmp
          cases hmp
        · simp [Channel.publishLocked, hal, hm, hmp] at hn
          rw [← hn] at hp
          simp at hp
    · rw [publishLocked_dead a v hal] at hn ⊢
      exact ha n hn hp
  | getEnter =>
    intro n hn hp
    rcases Bool.eq_false_or_eq_true a.alive with hal | hal
    · by_cases hd : a.data = []
      · rw [getEnter_alive_empty a hal hd]
        exact hd
      · rw [getEnter_alive_data a hal hd] at hn
        cases hn
    · rw [getEnter_dead a hal] at hn ⊢
      exact ha n hn hp
  | newData isCurrent =>
    intro n hn hp
    simp [Channel.onNewData]
  | pollTimeout isCurrent =>
    intro n hn hp
    cases isCurrent with
    | true => simp [Channel.onLongpollTimeout] at hn
    | false =>
      simp only [Channel.onLongpollTimeout, if_neg] at hn
      exact ha n (by simpa using hn) hp
  | dropFlag ha2 =>
    intro n hn hp
    exact ha n hn hp
  | dropLocked ha2 =>
    intro n hn hp
    simp [Channel.dropLocked]

/-- The invariant chInv holds in every state reachable from a state with no
parked getter. -/
theorem chInv_reach (ch0 ch : Channel) (h0 : ch0.notif = none)
    (hr : Relation.ReflTransGen ChStep ch0 ch) : chInv ch := by
  induction hr with
  | refl =>
    intro m hm _
    rw [h0] at hm
    cases hm
  | tail _ hstep ih => exact chInv_step hstep ih

/-- C3 amended: in every state reachable by atomic channel steps from a
freshly constructed state (empty queue, no parked getter), the queue is
non-empty only when no un-pinged waiter is parked: a parked waiter whose
pinged flag is still false implies an empty queue. -/
theorem c3_queue_waiter_spec (ch0 ch : Channel)
    (h0 : ch0.data = [] ∧ ch0.notif = none)
    (hr : Relation.ReflTransGen ChStep ch0 ch)
    (n : Getnotifier) (hn : ch.notif = some n) (hp : n.pinged = false) :
    ch.data = [] :=
  chInv_reach ch0 ch h0.2 hr n hn hp

/-- Witness for c3_queue_waiter_spec: the freshly parked waiter on chEx is
un-pinged and the queue there is indeed empty. -/
theorem c3_queue_waiter_spec_witness : chParked.data = [] :=
  c3_queue_waiter_spec chEx chParked ⟨rfl, rfl⟩
    (Relation.ReflTransGen.single (ChStep.getEnter chEx))
    { pinged := false, ping := false } rfl rfl

/-- Go: (ch) ID of channel.go. -/
def Channel.ID (ch : Channel) : String := ch.id

/-- Go map assignment on the association-list model of chmap. -/
def mapInsert (m : List (String × Channel)) (k : String) (v : Channel) :
    List (String × Channel) :=
  match m with
  | [] => [(k, v)]
  | (k0, v0) :: rest => if k0 = k then (k, v) :: rest else (k0, v0) :: mapInsert rest k v

/-- The value list of the chmap model (Go map range over values). -/
def mapValues (m : List (String × Channel)) : List Channel := m.map Prod.snd

/-- Go: LongPoll struct of longpoll.go: the registry from subscription id
to channel, the alive flag and the channel list cache (nil and empty are
indistinguishable for the Go slice, so one empty list models both). -/
structure LongPoll where
  chmap : List (String × Channel)
  alive : Bool
  chcache : List Channel
deriving DecidableEq

/-- Go: New of longpoll.go. -/
def LongPoll.New : LongPoll := { chmap := [], alive := true, chcache := [] }

/-- Go: (lp) IsAlive of longpoll.go. -/
def LongPoll.IsAlive (lp : LongPoll) : Bool := lp.alive

/-- Go: (lp) Subscribe of longpoll.go: broker-down when not alive, then
NewChannel with the broker's private drop as the exit handler; on success
the cache is invalidated and the channel registered under its id. -/
def LongPoll.Subscribe (lp : LongPoll) (timeout : Int) (topics : List String)
    (id : String) (now : Int) : Except String String × LongPoll :=
  if !lp.alive then (.error "pubsub is down", lp)
  else
    match NewChannel timeout (some CbTag.lpDrop) topics id now with
    | .ok ch => (.ok ch.id, { lp with chcache := [], chmap := mapInsert lp.chmap ch.id ch })
    | .error e => (.error e, lp)

/-- Go: (lp) Channels of longpoll.go: nil when not alive; when the cache is
empty (no data or invalidated) rebuild it from the currently alive
channels of the registry; return the cache. The pair carries the returned
list and the broker with the updated cache field. -/
def LongPoll.Channels (lp : LongPoll) : List Channel × LongPoll :=
  if !lp.alive then ([], lp)
  else
    let cache :=
      if lp.chcache.length = 0 then (mapValues lp.chmap).filter (fun ch => ch.alive)
      else lp.chcache
    (cache, { lp with chcache := cache })

/-- Go: (lp) Ids of longpoll.go: nil when not alive, else the ids of the
channels of the Channels snapshot that are still alive. -/
def LongPoll.Ids (lp : LongPoll) : List String :=
  if !lp.alive then []
  else ((lp.Channels.1).filter (fun ch => ch.alive)).map (fun ch => ch.ID)

/-- Go: (lp) Channel of longpoll.go: (nil, false) when the broker is not
alive; otherwise the registry entry together with found-and-alive. -/
def LongPoll.Channel (lp : LongPoll) (id : String) : Option Channel × Bool :=
  if !lp.alive then (none, false)
  else
    match lp.chmap.lookup id with
    | some ch => (some ch, ch.alive)
    | none => (none, false)

/-- Go: (lp) Get of longpoll.go: broker-down when not alive; delegate to
the channel's Get when the lookup reports found-and-alive; the unknown-id
error otherwise. -/
def LongPoll.Get (lp : LongPoll) (id : String) (polltime : Int) : Except String Unit :=
  if !lp.alive then .error "pubsub is down"
  else
    match lp.Channel id with
    | (some ch, true) => ch.Get polltime
    | _ => .error ("no channel for Id " ++ id)

/-- Go: (lp) Publish of longpoll.go: broker-down when not alive,
empty-topics on a topic-free call; otherwise for each channel of the
Channels snapshot and each topic, channel Publish (errors ignored). The
per-pointer channel updates are modelled as updates of the registry
entries; a channel that is dead or not subscribed to a topic is unchanged
by its Publish, so iterating the registry instead of the alive snapshot
produces the same channel states. -/
def LongPoll.Publish (lp : LongPoll) (v : Val) (topics : List String) :
    Except String Unit × LongPoll :=
  if !lp.alive then (.error "pubsub is down", lp)
  else if topics.length = 0 then (.error "expected at least one topic", lp)
  else
    (.ok (),
     { lp with
       chmap := lp.chmap.map (fun p => (p.1, topics.foldl (fun c t => (c.Publish v t).2) p.2)) })

/-- Go: the private (lp) drop of longpoll.go: invalidate the cache and
delete the registry entry. -/
def LongPoll.drop (lp : LongPoll) (id : String) : LongPoll :=
  { lp with chcache := [], chmap := lp.chmap.filter (fun p => !(p.1 == id)) }

/-- Go: (lp) Drop of longpoll.go: look the channel up (found-and-alive
only), remove it from the registry and ask it to drop. The Channel.Drop
call mutates an object just removed from the registry, so it leaves no
trace in the broker state. -/
def LongPoll.Drop (lp : LongPoll) (id : String) : LongPoll :=
  match lp.Channel id with
  | (some ch, true) => lp.drop ch.ID
  | _ => lp

/-- Go: (lp) Shutdown of longpoll.go: return at once when already down;
otherwise clear the alive flag, ask every registered channel to drop (an
effect on objects that the next line unregisters) and replace the registry
and cache with empty ones. -/
def LongPoll.Shutdown (lp : LongPoll) : LongPoll :=
  if !lp.alive then lp
  else { chmap := [], alive := false, chcache := [] }

/-- Go: (lp) Topics of longpoll.go: nil when not alive; otherwise the key
set of a map filled with every topic of every still-alive channel of the
Channels snapshot, returned sorted. The Go set-then-sort is modelled as
toFinset of the concatenation followed by the sorted key extraction. -/
def LongPoll.Topics (lp : LongPoll) : List String :=
  if !lp.alive then []
  else
    (((lp.Channels.1).filter (fun ch => ch.alive)).foldl
      (fun acc ch => acc ++ ch.topics) []).toFinset.sort (· ≤ ·)

/-- C5: Shutdown leaves an empty registry and a cleared alive flag, a
second Shutdown is a no-op, Subscribe, Publish and Get on the shut-down
broker all fail with the broker-down error, and Channels, Ids and Topics
all return empty. -/
theorem c5_shutdown_spec (lp : LongPoll) (h : lp.alive = true) :
    (lp.Shutdown).chmap = [] ∧ (lp.Shutdown).alive = false ∧
    (lp.Shutdown).Shutdown = lp.Shutdown ∧
    (∀ timeout topics id now,
      ((lp.Shutdown).Subscribe timeout topics id now).1 = .error "pubsub is down") ∧
    (∀ v topics, ((lp.Shutdown).Publish v topics).1 = .error "pubsub is down") ∧
    (∀ id polltime, (lp.Shutdown).Get id polltime = .error "pubsub is down") ∧
    ((lp.Shutdown).Channels).1 = [] ∧ (lp.Shutdown).Ids = [] ∧ (lp.Shutdown).Topics = [] := by
  have hs : lp.Shutdown = { chmap := [], alive := false, chcache := [] } := by
    simp [LongPoll.Shutdown, h]
  rw [hs]
  exact ⟨rfl, rfl, rfl, fun _ _ _ _ => rfl, fun _ _ => rfl, fun _ _ => rfl, rfl, rfl, rfl⟩

/-- Concrete live broker with one live registered channel. -/
def lpEx : LongPoll := { chmap := [("id1", chEx)], alive := true, chcache := [] }

/-- Witness for c5_shutdown_spec at the concrete broker lpEx. -/
theorem c5_shutdown_spec_witness :
    (lpEx.Shutdown).chmap = [] ∧ (lpEx.Shutdown).alive = false ∧
    (lpEx.Shutdown).Shutdown = lpEx.Shutdown ∧
    (∀ timeout topics id now,
      ((lpEx.Shutdown).Subscribe timeout topics id now).1 = .error "pubsub is down") ∧
    (∀ v topics, ((lpEx.Shutdown).Publish v topics).1 = .error "pubsub is down") ∧
    (∀ id polltime, (lpEx.Shutdown).Get id polltime = .error "pubsub is down") ∧
    ((lpEx.Shutdown).Channels).1 = [] ∧ (lpEx.Shutdown).Ids = [] ∧ (lpEx.Shutdown).Topics = [] :=
  c5_shutdown_spec lpEx rfl

/-- Cache consistency invariant of the broker: the chcache slice is either
invalidated (empty, as after every registry change) or a subset of the
registry values containing every still-alive registry value (as built by
Channels from the registry, given that channels only ever go from alive to
not alive and never back). -/
def cacheInv (lp : LongPoll) : Prop :=
  lp.chcache = [] ∨
  ((∀ ch, ch ∈ lp.chcache → ch ∈ mapValues lp.chmap) ∧
   (∀ ch, ch ∈ mapValues lp.chmap → ch.alive = true → ch ∈ lp.chcache))

/-- Membership in the topic-accumulating fold over a channel list. -/
theorem foldl_topics_mem (l : List Channel) (acc : List String) (x : String) :
    x ∈ l.foldl (fun acc2 ch => acc2 ++ ch.topics) acc ↔
      x ∈ acc ∨ ∃ ch, ch ∈ l ∧ x ∈ ch.topics := by
  induction l generalizing acc with
  | nil => simp
  | cons c rest ih =>
    rw [List.foldl_cons, ih, List.mem_append]
    constructor
    · rintro (⟨hx | hx⟩ | ⟨ch, hch, hx⟩)
      · exact Or.inl hx
      · exact Or.inr ⟨c, List.mem_cons_self c rest, hx⟩
      · exact Or.inr ⟨ch, List.mem_cons_of_mem c hch, hx⟩
    · rintro (hx | ⟨ch, hch, hx⟩)
      · exact Or.inl (Or.inl hx)
      · rcases List.mem_cons.mp hch with rfl | hch2
        · exact Or.inl (Or.inr hx)
        · exact Or.inr ⟨ch, hch2, hx⟩

/-- Under the cache invariant, the still-alive channels of the Channels
snapshot of a live broker are exactly the still-alive registry values. -/
theorem channels_filter_mem (lp : LongPoll) (h : lp.alive = true) (hc : cacheInv lp)
    (ch : Channel) :
    ch ∈ (lp.Channels.1).filter (fun c => c.alive) ↔
      ch ∈ mapValues lp.chmap ∧ ch.alive = true := by
  by_cases hcase : lp.chcache = []
  · simp only [LongPoll.Channels, h, Bool.not_true, Bool.false_eq_true, if_false,
      hcase, List.length_nil, if_pos rfl]
    simp [List.mem_filter, and_assoc]
  · have hlen : ¬ lp.chcache.length = 0 := by
      simpa [List.length_eq_zero] using hcase
    rcases hc with hnil | ⟨hsub, hsup⟩
    · exact absurd hnil hcase
    · simp only [LongPoll.Channels, h, Bool.not_true, Bool.false_eq_true, if_false,
        if_neg hlen]
      rw [List.mem_filter]
      constructor
      · rintro ⟨hin, hal⟩
        exact ⟨hsub ch hin, hal⟩
      · rintro ⟨hin, hal⟩
        exact ⟨hsup ch hin hal, hal⟩

/-- C6: on a live broker whose channel cache is consistent with the
registry, Topics is sorted, duplicate-free and contains exactly the topics
of the currently alive registered channels. -/
theorem c6_topics_spec (lp : LongPoll) (h : lp.alive = true) (hc : cacheInv lp) :
    List.Sorted (fun a b => a ≤ b) lp.Topics ∧ lp.Topics.Nodup ∧
    (∀ x, x ∈ lp.Topics ↔
      ∃ ch, ch ∈ mapValues lp.chmap ∧ ch.alive = true ∧ x ∈ ch.topics) := by
  have ht : lp.Topics =
      (((lp.Channels.1).filter (fun ch => ch.alive)).foldl
        (fun acc ch => acc ++ ch.topics) []).toFinset.sort (fun a b => a ≤ b) := by
    simp [LongPoll.Topics, h]
  rw [ht]
  refine ⟨Finset.sort_sorted _ _, Finset.sort_nodup _ _, ?_⟩
  intro x
  rw [Finset.mem_sort, List.mem_toFinset, foldl_topics_mem]
  simp only [List.not_mem_nil, false_or]
  constructor
  · rintro ⟨ch, hch, hx⟩
    rcases (channels_filter_mem lp h hc ch).mp hch with ⟨hin, hal⟩
    exact ⟨ch, hin, hal, hx⟩
  · rintro ⟨ch, hin, hal, hx⟩
    exact ⟨ch, (channels_filter_mem lp h hc ch).mpr ⟨hin, hal⟩, hx⟩

/-- Concrete dead channel registered under id x. -/
def chDead : Channel := { chEx with id := "x", alive := false }

/-- Concrete live broker holding one live and one dead channel. -/
def lpMix : LongPoll :=
  { chmap := [("id1", chEx), ("x", chDead)], alive := true, chcache := [] }

/-- Witness for c6_topics_spec on the concrete mixed broker lpMix. -/
theorem c6_topics_spec_witness :
    List.Sorted (fun a b => a ≤ b) lpMix.Topics ∧ lpMix.Topics.Nodup ∧
    (∀ x, x ∈ lpMix.Topics ↔
      ∃ ch, ch ∈ mapValues lpMix.chmap ∧ ch.alive = true ∧ x ∈ ch.topics) :=
  c6_topics_spec lpMix rfl (Or.inl rfl)

/-- Concrete live broker whose registry holds only the dead channel. -/
def lpBug : LongPoll := { chmap := [("x", chDead)], alive := true, chcache := [] }

/-- C7: evaluation at the failing input. The live broker lpBug has a
registry entry for id x whose channel is not alive; Drop x leaves the
broker completely unchanged and the entry still registered, because the
lookup reports found-and-alive only and so the removal the source comment
asks for (forced even when the channel is no longer alive) never runs. -/
theorem c7_drop_dead_entry_bug :
    (lpBug.chmap.lookup "x").isSome = true ∧
    chDead.alive = false ∧
    lpBug.Drop "x" = lpBug ∧
    ((lpBug.Drop "x").chmap.lookup "x").isSome = true :=
  ⟨rfl, rfl, rfl, rfl⟩

/-- C10: on a live broker whose registry still contains id but whose
channel there is no longer alive, Channel reports not-found (the pointer
with a false flag) and Get fails with the unknown-id error, not with the
channel-down error: a dead channel is indistinguishable from an
unregistered one at the broker's lookup interface. -/
theorem c10_dead_lookup_spec (lp : LongPoll) (id : String) (ch : Channel) (p : Int)
    (hl : lp.alive = true) (hm : lp.chmap.lookup id = some ch) (hd : ch.alive = false) :
    lp.Channel id = (some ch, false) ∧
    lp.Get id p = .error ("no channel for Id " ++ id) := by
  have h1 : lp.Channel id = (some ch, false) := by
    simp [LongPoll.Channel, hl, hm, hd]
  refine ⟨h1, ?_⟩
  simp [LongPoll.Get, hl, h1]

/-- Witness for c10_dead_lookup_spec on the concrete broker lpBug. -/
theorem c10_dead_lookup_spec_witness :
    lpBug.Channel "x" = (some chDead, false) ∧
    lpBug.Get "x" 5 = .error ("no channel for Id " ++ "x") :=
  c10_dead_lookup_spec lpBug "x" chDead 5 rfl rfl rfl
